import Mathlib

/-!
Shallow embedding of the persistent generation-session manager of the
coaipro chat backend (Go sources: the session registry in
`src/unnamed/part_002`, package `manager`, and the pipeline glue in
`src/manager/persistent_chat.go`).

Modelling conventions:
* Go strings that are sliced by byte index (`progress`, `total_progress`,
  progress fragments) are modelled as `List Char`; strings used only for
  equality and concatenation stay `String`.
* `time.Time` is modelled as `Nat` (seconds); every operation that calls
  `time.Now()` takes the current time `now : Nat` as an argument.
  `time.Hour` is `3600`.
* `float32` quota values are modelled as exact rationals; no claim
  depends on floating-point rounding.
* Go buffered channels are modelled as a bounded queue plus a `closed`
  flag.  Go runtime semantics are kept: `close` of a closed or nil
  channel panics, and a `select` send on a closed channel panics even
  when a `default` branch exists, while a send on a nil channel inside
  `select`+`default` simply falls through to `default`.  Operations that
  can panic return `SMState × Option String`, the `Option String` being
  the Go runtime panic message (`none` = normal return).
* The Redis cache is an association list keyed by session id (the code
  uses the constant key prefix `"chat_session:"`, which together with
  the prefix-stripping in `recoverSessions` is a bijection between keys
  and session ids, so the prefix is elided); `cache = none` models a nil
  Redis client.  JSON marshal/unmarshal of the snapshot struct is
  modelled as the snapshot value itself.
* `go sm.saveSessionToCache(...)` (fire-and-forget persistence) is
  sequentialized as an immediate cache write.
-/

namespace Coai

/-- `globals.Message` (declared in the `chat/globals` package, which is not
under src/; the fields `Role` and `Content` are the ones the sources under
src/ use). -/
structure Message where
  role : String
  content : String
deriving DecidableEq, Repr

/-- `globals.Chunk`: one raw streaming chunk (opaque to the registry; it is
only ever forwarded to the result stream). -/
structure Chunk where
  content : String
deriving DecidableEq, Repr

/-- `ChatSessionStatus` with its five constants (part_002 lines 17-25). -/
inductive ChatSessionStatus
  | pending
  | processing
  | completed
  | error
  | cancelled
deriving DecidableEq, Repr

/-- `session.Status == SessionPending || session.Status == SessionProcessing`. -/
def isActiveStatus : ChatSessionStatus → Bool
  | .pending => true
  | .processing => true
  | _ => false

/-- A Go buffered channel: pending buffer plus closed flag. -/
structure Chan (α : Type) where
  buf : List α
  closed : Bool
deriving DecidableEq, Repr

/-- Capacity of both delivery channels (`make(chan ..., 100)`). -/
def chanCap : Nat := 100

/-- Non-blocking send on an open channel (`select { case ch <- x: default: }`
when `ch` is open): appends when the buffer has room, silently drops when
full.  The closed-channel panic case is handled at the call site. -/
def chanOffer (c : Chan α) (x : α) : Chan α :=
  if c.buf.length < chanCap then { c with buf := c.buf ++ [x] } else c

/-- The runtime-only fields of a session (part_002 lines 45-48): the
cancellation handle (modelled by its observable done-flag; the 15-minute
hard timeout of `context.WithTimeout` fires through the same flag) and the
two bounded delivery channels.  They are either all present or all nil:
`CreateSession` always creates them and `loadSessionFromCache` creates
them exactly for non-terminal statuses. -/
structure Runtime where
  ctxCancelled : Bool
  progressStream : Chan (List Char)
  resultStream : Chan Chunk
deriving DecidableEq, Repr

/-- Fresh runtime fields: live context, two empty open channels. -/
def freshRuntime : Runtime :=
  { ctxCancelled := false
    progressStream := { buf := [], closed := false }
    resultStream := { buf := [], closed := false } }

/-- `ChatSession` (part_002 lines 28-49). -/
structure ChatSession where
  id : String
  conversationID : Int
  userID : Int
  status : ChatSessionStatus
  progress : List Char
  totalProgress : List Char
  lastActivity : Nat
  createdAt : Nat
  completedAt : Option Nat
  model : String
  messages : List Message
  result : String
  error : String
  quota : Rat
  runtime : Option Runtime
deriving DecidableEq, Repr

/-- The serialized snapshot struct used by `saveSessionToCache` /
`loadSessionFromCache` (part_002 lines 290-320): exactly the fourteen
persisted fields and no runtime-only field. -/
structure SessionSnapshot where
  id : String
  conversationID : Int
  userID : Int
  status : ChatSessionStatus
  progress : List Char
  totalProgress : List Char
  lastActivity : Nat
  createdAt : Nat
  completedAt : Option Nat
  model : String
  messages : List Message
  result : String
  error : String
  quota : Rat
deriving DecidableEq, Repr

/-- Go map get (`sm.sessions[id]`) on the association-list model. -/
def assocGet (k : String) : List (String × α) → Option α
  | [] => none
  | (k', v) :: rest => if k' = k then some v else assocGet k rest

/-- Go map set (`sm.sessions[id] = v`): replace in place or append. -/
def assocSet (k : String) (v : α) : List (String × α) → List (String × α)
  | [] => [(k, v)]
  | (k', v') :: rest => if k' = k then (k, v) :: rest else (k', v') :: assocSet k v rest

/-- The `SessionManager` state: the in-memory session map plus the shared
durable cache (`none` models a nil Redis client).  The `userSessions` /
`conversationSessions` fields of the Go struct are never initialized nor
read by the constructor actually used (`GetSessionManager`), so they are
not modelled. -/
structure SMState where
  sessions : List (String × ChatSession)
  cache : Option (List (String × SessionSnapshot))
deriving DecidableEq, Repr

/-- Projection of a session onto its serialized form
(`saveSessionToCache`, part_002 lines 290-320). -/
def sessionToSnapshot (s : ChatSession) : SessionSnapshot :=
  { id := s.id
    conversationID := s.conversationID
    userID := s.userID
    status := s.status
    progress := s.progress
    totalProgress := s.totalProgress
    lastActivity := s.lastActivity
    createdAt := s.createdAt
    completedAt := s.completedAt
    model := s.model
    messages := s.messages
    result := s.result
    error := s.error
    quota := s.quota }

/-- Reconstruction of a session from its snapshot
(`loadSessionFromCache`, part_002 lines 364-388): runtime fields are
re-derived fresh exactly when the restored status is pending/processing. -/
def snapshotToSession (d : SessionSnapshot) : ChatSession :=
  { id := d.id
    conversationID := d.conversationID
    userID := d.userID
    status := d.status
    progress := d.progress
    totalProgress := d.totalProgress
    lastActivity := d.lastActivity
    createdAt := d.createdAt
    completedAt := d.completedAt
    model := d.model
    messages := d.messages
    result := d.result
    error := d.error
    quota := d.quota
    runtime := if isActiveStatus d.status then some freshRuntime else none }

/-- `saveSessionToCache` (part_002 lines 284-329): no-op (logged error)
when the cache client is nil, otherwise stores the snapshot under the
session-id key with a 24h TTL (the TTL is not modelled). -/
def saveSessionToCache (st : SMState) (s : ChatSession) : SMState :=
  match st.cache with
  | none => st
  | some entries => { st with cache := some (assocSet s.id (sessionToSnapshot s) entries) }

/-- `loadSessionFromCache` (part_002 lines 332-391). -/
def loadSessionFromCache (st : SMState) (sessionID : String) : Option ChatSession :=
  match st.cache with
  | none => none
  | some entries => (assocGet sessionID entries).map snapshotToSession

/-- `CreateSession` (part_002 lines 106-142).  The uuid generated by
`uuid.New()` is passed in as `sessionID` (an environmental fresh-name
supply). -/
def CreateSession (st : SMState) (sessionID : String) (now : Nat)
    (userID conversationID : Int) (model : String) (messages : List Message) :
    SMState × ChatSession :=
  let session : ChatSession :=
    { id := sessionID
      conversationID := conversationID
      userID := userID
      status := .pending
      progress := []
      totalProgress := []
      lastActivity := now
      createdAt := now
      completedAt := none
      model := model
      messages := messages
      result := ""
      error := ""
      quota := 0
      runtime := some freshRuntime }
  let st1 : SMState := { st with sessions := assocSet sessionID session st.sessions }
  (saveSessionToCache st1 session, session)

/-- `GetSession` (part_002 lines 145-154): touches `LastActivity` on hit. -/
def GetSession (st : SMState) (sessionID : String) (now : Nat) :
    SMState × Option ChatSession :=
  match assocGet sessionID st.sessions with
  | none => (st, none)
  | some s =>
    let s' := { s with lastActivity := now }
    ({ st with sessions := assocSet sessionID s' st.sessions }, some s')

/-- `UpdateSessionProgress` (part_002 lines 157-176).  The returned
`Option String` is the Go panic, raised when the select-send hits a
closed channel; on a nil channel the select falls to `default` and the
fragment is dropped. -/
def UpdateSessionProgress (st : SMState) (sessionID : String)
    (progress : List Char) (now : Nat) : SMState × Option String :=
  match assocGet sessionID st.sessions with
  | none => (st, none)
  | some s =>
    let s1 := { s with
      progress := progress
      totalProgress := s.totalProgress ++ progress
      lastActivity := now }
    match s.runtime with
    | none =>
      (saveSessionToCache { st with sessions := assocSet sessionID s1 st.sessions } s1, none)
    | some rt =>
      if rt.progressStream.closed then
        ({ st with sessions := assocSet sessionID s1 st.sessions }, some "send on closed channel")
      else
        let s2 := { s1 with
          runtime := some { rt with progressStream := chanOffer rt.progressStream progress } }
        (saveSessionToCache { st with sessions := assocSet sessionID s2 st.sessions } s2, none)

/-- `close(session.ProgressStream); close(session.ResultStream)`: the
close pair shared by the three terminal transitions.  Closing a closed
(or nil) channel panics; on a panic the second close never runs. -/
def closeStreams : Option Runtime → Option Runtime × Option String
  | none => (none, some "close of nil channel")
  | some rt =>
    if rt.progressStream.closed then
      (some rt, some "close of closed channel")
    else
      let rt1 := { rt with progressStream := { rt.progressStream with closed := true } }
      if rt1.resultStream.closed then
        (some rt1, some "close of closed channel")
      else
        (some { rt1 with resultStream := { rt1.resultStream with closed := true } }, none)

/-- `CompleteSession` (part_002 lines 179-200).  Note: there is no
already-terminal guard; the record fields are overwritten before the
closes run, so on a double close the mutations survive while the save is
skipped by the panic. -/
def CompleteSession (st : SMState) (sessionID : String) (result : String)
    (quota : Rat) (now : Nat) : SMState × Option String :=
  match assocGet sessionID st.sessions with
  | none => (st, none)
  | some s =>
    let s1 := { s with
      status := .completed
      result := result
      quota := quota
      completedAt := some now
      lastActivity := now }
    let (rt', panicMsg) := closeStreams s.runtime
    let s2 := { s1 with runtime := rt' }
    let st1 : SMState := { st with sessions := assocSet sessionID s2 st.sessions }
    match panicMsg with
    | some p => (st1, some p)
    | none => (saveSessionToCache st1 s2, none)

/-- `FailSession` (part_002 lines 203-223); same shape as
`CompleteSession`, storing the error message instead of result/quota. -/
def FailSession (st : SMState) (sessionID : String) (errorMsg : String)
    (now : Nat) : SMState × Option String :=
  match assocGet sessionID st.sessions with
  | none => (st, none)
  | some s =>
    let s1 := { s with
      status := .error
      error := errorMsg
      completedAt := some now
      lastActivity := now }
    let (rt', panicMsg) := closeStreams s.runtime
    let s2 := { s1 with runtime := rt' }
    let st1 : SMState := { st with sessions := assocSet sessionID s2 st.sessions }
    match panicMsg with
    | some p => (st1, some p)
    | none => (saveSessionToCache st1 s2, none)

/-- `CancelSession` (part_002 lines 226-250): marks cancelled, fires the
cancellation handle when present (`if session.Cancel != nil`), then
closes the streams. -/
def CancelSession (st : SMState) (sessionID : String) (now : Nat) :
    SMState × Option String :=
  match assocGet sessionID st.sessions with
  | none => (st, none)
  | some s =>
    let s1 := { s with
      status := .cancelled
      completedAt := some now
      lastActivity := now }
    let rtCancelled := s.runtime.map (fun (rt : Runtime) => { rt with ctxCancelled := true })
    let (rt', panicMsg) := closeStreams rtCancelled
    let s2 := { s1 with runtime := rt' }
    let st1 : SMState := { st with sessions := assocSet sessionID s2 st.sessions }
    match panicMsg with
    | some p => (st1, some p)
    | none => (saveSessionToCache st1 s2, none)

/-- `GetUserSessions` (part_002 lines 253-265). -/
def GetUserSessions (st : SMState) (userID : Int) : List ChatSession :=
  (st.sessions.map Prod.snd).filter (fun s => s.userID == userID)

/-- The search predicate of `GetConversationSession` (part_002 lines
273-275): same user, same conversation, status Pending or Processing. -/
def activeFor (userID conversationID : Int) (s : ChatSession) : Bool :=
  s.userID == userID && s.conversationID == conversationID && isActiveStatus s.status

/-- `GetConversationSession` (part_002 lines 268-281): the first record
matching (user, conversation) with an active status.  Go map iteration
order is unspecified, but under the single-flight invariant at most one
record matches, so the list order is immaterial. -/
def GetConversationSession (st : SMState) (userID conversationID : Int) :
    Option ChatSession :=
  (st.sessions.map Prod.snd).find? (activeFor userID conversationID)

/-- `time.Hour` in the model's time unit. -/
def hourDuration : Nat := 3600

/-- One iteration of the `recoverSessions` loop (part_002 lines 407-424)
for one cache key. -/
def recoverStep (now : Nat) (st : SMState) (sessionID : String) : SMState :=
  match loadSessionFromCache st sessionID with
  | none => st
  | some session =>
    if isActiveStatus session.status then
      if now - session.lastActivity < hourDuration then
        { st with sessions := assocSet sessionID session st.sessions }
      else
        saveSessionToCache st
          { session with status := .error, error := "Session expired during recovery" }
    else st

/-- `recoverSessions` (part_002 lines 394-429): enumerate the durable
keys, load each snapshot, re-admit fresh active sessions, force stale
active ones to error and persist that correction.  No processing
pipeline is dispatched anywhere in this function. -/
def recoverSessions (st : SMState) (now : Nat) : SMState :=
  match st.cache with
  | none => st
  | some entries => (entries.map Prod.fst).foldl (recoverStep now) st

/-- `cleanupOldSessions` (part_002 lines 442-468): evicts every record
inactive for more than an hour (the in-flight ones are cancelled through
their handle first, then deleted; the observable registry effect is the
deletion). -/
def cleanupOldSessions (st : SMState) (now : Nat) : SMState :=
  let keep : String × ChatSession → Bool :=
    fun kv => !(decide (now - kv.2.lastActivity > hourDuration))
  { st with sessions := st.sessions.filter keep }

/-- The synchronous part of `StartPersistentChat`
(`src/manager/persistent_chat.go` lines 40-52): refuse with a
duplicate-active-session error naming the existing session's id when the
(user, conversation) pair already has an active record, otherwise create
the record.  The asynchronous dispatch of the processing task (lines
55-66) is modelled separately by `backgroundTask`. -/
def StartPersistentChat (st : SMState) (newSessionID : String) (now : Nat)
    (userID conversationID : Int) (model : String) (messages : List Message) :
    SMState × Except String ChatSession :=
  match GetConversationSession st userID conversationID with
  | some existing =>
    (st, Except.error ("conversation already has an active session: " ++ existing.id))
  | none =>
    let (st1, session) := CreateSession st newSessionID now userID conversationID model messages
    (st1, Except.ok session)

/-- Outcome of one run of the background task body
(`processPersistentChatSession`): normal return, error return, or a Go
panic carrying its message. -/
inductive BodyResult
  | ok
  | err (msg : String)
  | panicked (msg : String)
deriving DecidableEq, Repr

/-- The goroutine wrapper around the background task
(`src/manager/persistent_chat.go` lines 55-66): an error return is turned
into `FailSession`; a panic is recovered by the deferred handler, which
calls `FailSession` with an `Internal error:` message.  Go semantics of
`defer`/`recover` are kept: a panic raised by the `FailSession` in the
goroutine body is itself recovered (the deferred handler then runs), but
a panic raised by the `FailSession` inside the deferred handler occurs
after `recover` has already fired and therefore propagates out of the
goroutine (second component `some _`), crashing the process. -/
def backgroundTask (body : SMState → SMState × BodyResult) (st : SMState)
    (sessionID : String) (now : Nat) : SMState × Option String :=
  match body st with
  | (st1, .ok) => (st1, none)
  | (st1, .err msg) =>
    match FailSession st1 sessionID msg now with
    | (st2, none) => (st2, none)
    | (st2, some p1) =>
      match FailSession st2 sessionID ("Internal error: " ++ p1) now with
      | (st3, none) => (st3, none)
      | (st3, some p2) => (st3, some p2)
  | (st1, .panicked pm) =>
    match FailSession st1 sessionID ("Internal error: " ++ pm) now with
    | (st2, none) => (st2, none)
    | (st2, some p2) => (st2, some p2)

/-- `ProgressStreamHandler` (`src/manager/persistent_chat.go` lines
207-211): a per-observer read offset into the live record's
`TotalProgress`.  Each handler owns its `lastSent` offset, so observers
are independent by construction. -/
structure ProgressStreamHandler where
  sessionID : String
  lastSent : Nat
deriving DecidableEq, Repr

/-- `GetNewProgress` (`src/manager/persistent_chat.go` lines 228-241).
The live record's `TotalProgress` is passed in (`none` models a nil
`psh.Session` pointer). -/
def GetNewProgress (psh : ProgressStreamHandler) :
    Option (List Char) → List Char × ProgressStreamHandler
  | none => ([], psh)
  | some tp =>
    if tp.length > psh.lastSent then
      (tp.drop psh.lastSent, { psh with lastSent := tp.length })
    else ([], psh)

/-- `NewProgressStreamHandler` (`src/manager/persistent_chat.go` lines
213-225): zero read offset; the embedded `GetSession` touch updates
`lastActivity`. -/
def NewProgressStreamHandler (st : SMState) (sessionID : String) (now : Nat) :
    SMState × Option ProgressStreamHandler :=
  match GetSession st sessionID now with
  | (st1, none) => (st1, none)
  | (st1, some _) => (st1, some { sessionID := sessionID, lastSent := 0 })

/-- `IsCompleted` (`src/manager/persistent_chat.go` lines 244-252),
evaluated on the live record's status (`none` models a nil session). -/
def IsCompleted : Option ChatSessionStatus → Bool
  | none => true
  | some s => s == .completed || s == .error || s == .cancelled

/-- `globals.Assistant` (the `chat/globals` package is not under src/;
the constant is the standard assistant role string). -/
def Assistant : String := "assistant"

/-- Modelled from the spec: the external conversation store
(`chat/manager/conversation`, not under src/) — "a conversation-store
load/append-assistant-message call"; only the message list is relevant
to the persistence guard. -/
structure Conversation where
  messages : List Message
deriving DecidableEq, Repr

/-- Modelled from the spec: `instance.GetMessageLength()` of the
conversation store (not under src/) — the number of stored messages. -/
def GetMessageLength (c : Conversation) : Nat := c.messages.length

/-- Modelled from the spec: `instance.GetMessageById(i)` of the
conversation store (not under src/) — the i-th stored message. -/
def GetMessageById (c : Conversation) (i : Nat) : Message :=
  c.messages.getD i { role := "", content := "" }

/-- Modelled from the spec: `instance.SaveResponse(db, result)` of the
conversation store (not under src/) — the "append-assistant-message
call": appends one assistant message whose content is the result. -/
def SaveResponse (c : Conversation) (result : String) : Conversation :=
  { c with messages := c.messages ++ [{ role := Assistant, content := result }] }

/-- The `shouldSave` guard of `processPersistentChatSession`
(`src/manager/persistent_chat.go` lines 161-167): save unless the latest
stored message is already an assistant message with identical content. -/
def shouldSaveResult (inst : Conversation) (result : String) : Bool :=
  if GetMessageLength inst > 0 then
    let latest := GetMessageById inst (GetMessageLength inst - 1)
    !(latest.role == Assistant && latest.content == result)
  else true

/-- The conditional result-persistence step of
`processPersistentChatSession` (`src/manager/persistent_chat.go` lines
158-172): skip anonymous users (`UserID == -1`), skip a nil loaded
conversation (`conv = none`), and skip the write when `shouldSaveResult`
says the latest stored message already matches.  Returns the store and
whether `SaveResponse` was invoked. -/
def persistResultStep (userID : Int) (conv : Option Conversation) (result : String) :
    Option Conversation × Bool :=
  if userID ≠ -1 then
    match conv with
    | some inst =>
      if shouldSaveResult inst result then (some (SaveResponse inst result), true)
      else (some inst, false)
    | none => (none, false)
  else (conv, false)

/-- The observable effects of the request-result section of
`processPersistentChatSession`. -/
structure FinishResult where
  state : SMState
  conv : Option Conversation
  quotaCollected : Bool
  usageReverted : Bool
  savedResponse : Bool
  retErr : Option String
  panicMsg : Option String
deriving DecidableEq, Repr

/-- Result of `channel.NewChatRequestWithCache` (external collaborator):
a cache-hit flag on success, or an error classified by
`adapter.IsAvailableError`. -/
inductive ChatRequestOutcome
  | success (hit : Bool)
  | failure (isAvailabilityError : Bool) (msg : String)
deriving DecidableEq, Repr

/-- The tail of `processPersistentChatSession`
(`src/manager/persistent_chat.go` lines 139-177), after the model request
returns: on an availability error revert the subscription usage and
return the upstream error; on any other error return it; on success,
collect quota iff the result was not a cache hit **and** the request was
not covered by the subscription plan (`if !hit && !plan`), conditionally
persist the result to the conversation store, emit a final progress
fragment, and complete the session.  `result` stands for
`buffer.ReadWithDefault("AI响应为空")` and `quota` for
`buffer.GetQuota()` (the `utils.Buffer` collaborator is not under src/). -/
def finishRequest (st : SMState) (sessionID : String) (userID : Int) (now : Nat)
    (outcome : ChatRequestOutcome) (plan : Bool) (result : String) (quota : Rat)
    (conv : Option Conversation) : FinishResult :=
  match outcome with
  | .failure true msg =>
    { state := st, conv := conv, quotaCollected := false, usageReverted := true
      savedResponse := false, retErr := some ("AI service error: " ++ msg), panicMsg := none }
  | .failure false msg =>
    { state := st, conv := conv, quotaCollected := false, usageReverted := false
      savedResponse := false, retErr := some ("request failed: " ++ msg), panicMsg := none }
  | .success hit =>
    let collected := !hit && !plan
    let (conv', saved) := persistResultStep userID conv result
    let (st1, p1) := UpdateSessionProgress st sessionID "响应完成！".data now
    match p1 with
    | some p =>
      { state := st1, conv := conv', quotaCollected := collected, usageReverted := false
        savedResponse := saved, retErr := none, panicMsg := some p }
    | none =>
      let (st2, p2) := CompleteSession st1 sessionID result quota now
      { state := st2, conv := conv', quotaCollected := collected, usageReverted := false
        savedResponse := saved, retErr := none, panicMsg := p2 }

/-- One registry operation, for stating whole-lifetime invariants. -/
inductive RegistryOp
  | create (sessionID : String) (now : Nat) (userID conversationID : Int)
      (model : String) (messages : List Message)
  | get (sessionID : String) (now : Nat)
  | update (sessionID : String) (progress : List Char) (now : Nat)
  | complete (sessionID : String) (result : String) (quota : Rat) (now : Nat)
  | fail (sessionID : String) (msg : String) (now : Nat)
  | cancel (sessionID : String) (now : Nat)
  | cleanup (now : Nat)
deriving Repr

/-- Apply one registry operation to the manager state. -/
def applyOp (st : SMState) : RegistryOp → SMState
  | .create id now u c m msgs => (CreateSession st id now u c m msgs).1
  | .get id now => (GetSession st id now).1
  | .update id p now => (UpdateSessionProgress st id p now).1
  | .complete id r q now => (CompleteSession st id r q now).1
  | .fail id m now => (FailSession st id m now).1
  | .cancel id now => (CancelSession st id now).1
  | .cleanup now => cleanupOldSessions st now

/-- Apply a sequence of registry operations. -/
def applyOps (st : SMState) (ops : List RegistryOp) : SMState := ops.foldl applyOp st

/-- A create operation uses a fresh uuid (the environmental guarantee of
`uuid.New()`): its session id is not already registered. -/
def freshOp (st : SMState) : RegistryOp → Bool
  | .create id _ _ _ _ _ => (assocGet id st.sessions).isNone
  | _ => true

/-- Every create in the sequence uses a fresh uuid at its point of
application. -/
def freshOps : SMState → List RegistryOp → Bool
  | _, [] => true
  | st, op :: rest => freshOp st op && freshOps (applyOp st op) rest

/-- Arguments of one `StartPersistentChat` call. -/
structure StartCall where
  newSessionID : String
  now : Nat
  userID : Int
  conversationID : Int
  model : String
  messages : List Message
deriving Repr

/-- Apply one `StartPersistentChat` call (state part). -/
def applyStart (st : SMState) (c : StartCall) : SMState :=
  (StartPersistentChat st c.newSessionID c.now c.userID c.conversationID c.model c.messages).1

/-- Apply a sequence of `StartPersistentChat` calls. -/
def applyStarts (st : SMState) (cs : List StartCall) : SMState := cs.foldl applyStart st

/-- Every call in the sequence supplies a fresh uuid. -/
def freshStarts : SMState → List StartCall → Bool
  | _, [] => true
  | st, c :: rest =>
    (assocGet c.newSessionID st.sessions).isNone && freshStarts (applyStart st c) rest

/-- The single-flight invariant: for every (user, conversation) pair, at
most one registered record is Pending/Processing. -/
def ActiveUnique (st : SMState) : Prop :=
  ∀ u c : Int, ((st.sessions.map Prod.snd).filter (activeFor u c)).length ≤ 1

/-- Every cache entry is stored under its own session id (always true of
entries written by `saveSessionToCache`, which keys by `session.ID`). -/
def wellKeyed (l : List (String × SessionSnapshot)) : Bool :=
  l.all (fun kv => kv.2.id == kv.1)

section Lemmas

theorem assocGet_assocSet_self (k : String) (v : α) (l : List (String × α)) :
    assocGet k (assocSet k v l) = some v := by
  induction l with
  | nil => simp [assocGet, assocSet]
  | cons hd tl ih =>
    obtain ⟨k', v'⟩ := hd
    by_cases h : k' = k
    · simp [assocSet, assocGet, h]
    · simp [assocSet, assocGet, h, ih]

theorem assocGet_assocSet_ne (k k' : String) (hne : k' ≠ k) (v : α)
    (l : List (String × α)) : assocGet k (assocSet k' v l) = assocGet k l := by
  induction l with
  | nil => simp [assocGet, assocSet, hne]
  | cons hd tl ih =>
    obtain ⟨k₁, v₁⟩ := hd
    by_cases h : k₁ = k'
    · subst h
      simp [assocSet, assocGet, hne]
    · by_cases h2 : k₁ = k
      · simp [assocSet, assocGet, h, h2, Ne.symm hne]
      · simp [assocSet, assocGet, h, h2, ih]

theorem assocSet_absent (k : String) (v : α) (l : List (String × α))
    (h : assocGet k l = none) : assocSet k v l = l ++ [(k, v)] := by
  induction l with
  | nil => simp [assocSet]
  | cons hd tl ih =>
    obtain ⟨k₁, v₁⟩ := hd
    by_cases hk : k₁ = k
    · simp [assocGet, hk] at h
    · simp [assocGet, hk] at h
      simp [assocSet, hk, ih h]

theorem assocGet_not_mem (k : String) (l : List (String × α))
    (h : k ∉ l.map Prod.fst) : assocGet k l = none := by
  induction l with
  | nil => rfl
  | cons hd tl ih =>
    obtain ⟨k₁, v₁⟩ := hd
    simp only [List.map_cons, List.mem_cons, not_or] at h
    have hk : k₁ ≠ k := fun he => h.1 he.symm
    simp [assocGet, hk, ih h.2]

theorem keys_assocSet_present (k : String) (v : α) (l : List (String × α))
    (h : assocGet k l ≠ none) :
    (assocSet k v l).map Prod.fst = l.map Prod.fst := by
  induction l with
  | nil => simp [assocGet] at h
  | cons hd tl ih =>
    obtain ⟨k₁, v₁⟩ := hd
    by_cases hk : k₁ = k
    · simp [assocSet, hk]
    · simp [assocGet, hk] at h
      simp [assocSet, hk, ih h]

theorem sessions_saveSessionToCache (st : SMState) (s : ChatSession) :
    (saveSessionToCache st s).sessions = st.sessions := by
  cases h : st.cache <;> simp [saveSessionToCache, h]

/-- Snapshot/session roundtrip in the other direction (used to compute
what the stale-recovery correction persists). -/
theorem toSnapshot_toSession (d : SessionSnapshot) :
    sessionToSnapshot (snapshotToSession d) = d := rfl

end Lemmas

/-- C9: loading a durable snapshot produced by saving a session yields a
record equal to the original on every persisted field (id,
conversation_id, user_id, status, progress, total_progress, created_at,
last_activity, completed_at, model, messages, result, error, quota); the
snapshot struct (`SessionSnapshot`) carries no runtime-only field by
construction, and the load re-derives fresh runtime fields (live
cancellation handle, two empty open queues) exactly when the restored
status is Pending or Processing. -/
theorem snapshot_roundtrip (s : ChatSession) :
    (snapshotToSession (sessionToSnapshot s)).id = s.id ∧
    (snapshotToSession (sessionToSnapshot s)).conversationID = s.conversationID ∧
    (snapshotToSession (sessionToSnapshot s)).userID = s.userID ∧
    (snapshotToSession (sessionToSnapshot s)).status = s.status ∧
    (snapshotToSession (sessionToSnapshot s)).progress = s.progress ∧
    (snapshotToSession (sessionToSnapshot s)).totalProgress = s.totalProgress ∧
    (snapshotToSession (sessionToSnapshot s)).createdAt = s.createdAt ∧
    (snapshotToSession (sessionToSnapshot s)).lastActivity = s.lastActivity ∧
    (snapshotToSession (sessionToSnapshot s)).completedAt = s.completedAt ∧
    (snapshotToSession (sessionToSnapshot s)).model = s.model ∧
    (snapshotToSession (sessionToSnapshot s)).messages = s.messages ∧
    (snapshotToSession (sessionToSnapshot s)).result = s.result ∧
    (snapshotToSession (sessionToSnapshot s)).error = s.error ∧
    (snapshotToSession (sessionToSnapshot s)).quota = s.quota ∧
    (snapshotToSession (sessionToSnapshot s)).runtime =
      (if isActiveStatus s.status then some freshRuntime else none) :=
  ⟨rfl, rfl, rfl, rfl, rfl, rfl, rfl, rfl, rfl, rfl, rfl, rfl, rfl, rfl, rfl⟩

/-- C10: for a session id absent from the in-memory registry,
`UpdateSessionProgress`, `CompleteSession`, `FailSession` and
`CancelSession` all return normally (no error value exists, no panic) and
leave the whole manager state — session map and cache — unchanged. -/
theorem missing_session_ops_noop (st : SMState) (sessionID : String)
    (frag : List Char) (result msg : String) (quota : Rat) (n1 n2 n3 n4 : Nat)
    (h : assocGet sessionID st.sessions = none) :
    UpdateSessionProgress st sessionID frag n1 = (st, none) ∧
    CompleteSession st sessionID result quota n2 = (st, none) ∧
    FailSession st sessionID msg n3 = (st, none) ∧
    CancelSession st sessionID n4 = (st, none) := by
  refine ⟨?_, ?_, ?_, ?_⟩ <;>
    simp [UpdateSessionProgress, CompleteSession, FailSession, CancelSession, h]

theorem missing_session_ops_noop_witness :
    UpdateSessionProgress { sessions := [], cache := none } "ghost" ['a'] 1 =
      ({ sessions := [], cache := none }, none) ∧
    CompleteSession { sessions := [], cache := none } "ghost" "r" 1 2 =
      ({ sessions := [], cache := none }, none) ∧
    FailSession { sessions := [], cache := none } "ghost" "m" 3 =
      ({ sessions := [], cache := none }, none) ∧
    CancelSession { sessions := [], cache := none } "ghost" 4 =
      ({ sessions := [], cache := none }, none) :=
  missing_session_ops_noop { sessions := [], cache := none } "ghost" ['a'] "r" "m" 1 1 2 3 4 rfl

/-- C4: a Pull (`GetNewProgress`) with read offset `o ≤ |total_progress|`
returns exactly `total_progress[o:]` and advances the offset to
`|total_progress|` (the empty string when `o` is already at the end);
consequently an observer created at offset 0 that pulls, waits for the
log to grow, and pulls again, receives two fragments whose concatenation
is `total_progress` truncated at the second call's end offset, with that
end offset equal to the full length — no gaps, duplication or
reordering.  Observers are independent by construction: `GetNewProgress`
reads and writes only its own handler's `lastSent`. -/
theorem getNewProgress_monotone_replay :
    (∀ (psh : ProgressStreamHandler) (tp : List Char), psh.lastSent ≤ tp.length →
      GetNewProgress psh (some tp) =
        (tp.drop psh.lastSent, { psh with lastSent := tp.length })) ∧
    (∀ (sid : String) (tp1 tp2 rest : List Char), tp2 = tp1 ++ rest →
      (GetNewProgress ⟨sid, 0⟩ (some tp1)).1 ++
        (GetNewProgress (GetNewProgress ⟨sid, 0⟩ (some tp1)).2 (some tp2)).1 =
        tp2.take ((GetNewProgress (GetNewProgress ⟨sid, 0⟩ (some tp1)).2 (some tp2)).2.lastSent) ∧
      (GetNewProgress (GetNewProgress ⟨sid, 0⟩ (some tp1)).2 (some tp2)).2.lastSent = tp2.length) := by
  have pull : ∀ (psh : ProgressStreamHandler) (tp : List Char), psh.lastSent ≤ tp.length →
      GetNewProgress psh (some tp) =
        (tp.drop psh.lastSent, { psh with lastSent := tp.length }) := by
    intro psh tp h
    obtain ⟨sid, o⟩ := psh
    by_cases hlt : tp.length > o
    · simp [GetNewProgress, hlt]
    · have heq : o = tp.length := le_antisymm h (not_lt.mp hlt)
      subst heq
      simp [GetNewProgress, List.drop_length]
  refine ⟨pull, ?_⟩
  intro sid tp1 tp2 rest h2
  rw [pull ⟨sid, 0⟩ tp1 (Nat.zero_le _)]
  have hle : tp1.length ≤ tp2.length := by
    subst h2; simp
  rw [pull ⟨sid, tp1.length⟩ tp2 hle]
  subst h2
  simp [List.drop_left]

theorem getNewProgress_monotone_replay_witness :
    GetNewProgress ⟨"s", 2⟩ (some "Hello".data) =
      ("Hello".data.drop 2, { sessionID := "s", lastSent := "Hello".data.length }) ∧
    ((GetNewProgress ⟨"s", 0⟩ (some "Hel".data)).1 ++
      (GetNewProgress (GetNewProgress ⟨"s", 0⟩ (some "Hel".data)).2 (some "Hello".data)).1 =
      "Hello".data.take
        ((GetNewProgress (GetNewProgress ⟨"s", 0⟩ (some "Hel".data)).2 (some "Hello".data)).2.lastSent) ∧
    (GetNewProgress (GetNewProgress ⟨"s", 0⟩ (some "Hel".data)).2 (some "Hello".data)).2.lastSent =
      "Hello".data.length) :=
  ⟨getNewProgress_monotone_replay.1 ⟨"s", 2⟩ "Hello".data (by decide),
   getNewProgress_monotone_replay.2 "s" "Hel".data "Hello".data "lo".data (by decide)⟩

/-- A registry holding one already-completed session, its two delivery
queues already closed by the first terminal transition. -/
def terminalStateA : SMState :=
  { sessions := [("s1",
      { id := "s1"
        conversationID := 42
        userID := 7
        status := .completed
        progress := ['o']
        totalProgress := "Hello".data
        lastActivity := 100
        createdAt := 90
        completedAt := some 100
        model := "m"
        messages := []
        result := "Hello"
        error := ""
        quota := 1/2
        runtime := some
          { ctxCancelled := false
            progressStream := { buf := [], closed := true }
            resultStream := { buf := [], closed := true } } })]
    cache := none }

/-- C1 (refuted at a concrete input): the terminal transitions have no
already-terminal guard (part_002 lines 179-250 test only map membership),
so a second `CompleteSession` on an already-completed session overwrites
the record — `completed_at` is re-set to the new time, i.e. not set
exactly once — and re-closes the already-closed progress queue, which in
Go is a `close of closed channel` runtime panic; `FailSession` and
`CancelSession` behave the same and additionally overwrite the terminal
status itself. -/
theorem terminal_reentry_mutates_and_panics :
    (CompleteSession terminalStateA "s1" "r2" 2 200).2 = some "close of closed channel" ∧
    ((assocGet "s1" (CompleteSession terminalStateA "s1" "r2" 2 200).1.sessions).map
      (fun s => s.completedAt)) = some (some 200) ∧
    ((assocGet "s1" (CompleteSession terminalStateA "s1" "r2" 2 200).1.sessions).map
      (fun s => s.result)) = some "r2" ∧
    (FailSession terminalStateA "s1" "boom" 200).2 = some "close of closed channel" ∧
    ((assocGet "s1" (FailSession terminalStateA "s1" "boom" 200).1.sessions).map
      (fun s => s.status)) = some ChatSessionStatus.error ∧
    (CancelSession terminalStateA "s1" 200).2 = some "close of closed channel" ∧
    ((assocGet "s1" (CancelSession terminalStateA "s1" 200).1.sessions).map
      (fun s => s.status)) = some ChatSessionStatus.cancelled := by
  decide

/-- A registry holding one already-cancelled session (e.g. cancelled via
`CancelPersistentChat` while its pipeline was still running), queues
closed. -/
def terminalStateB : SMState :=
  { sessions := [("s1",
      { id := "s1"
        conversationID := 42
        userID := 7
        status := .cancelled
        progress := []
        totalProgress := "Hel".data
        lastActivity := 120
        createdAt := 90
        completedAt := some 120
        model := "m"
        messages := []
        result := ""
        error := ""
        quota := 0
        runtime := some
          { ctxCancelled := true
            progressStream := { buf := [], closed := true }
            resultStream := { buf := [], closed := true } } })]
    cache := none }

/-- C3 (refuted at a concrete input): the goroutine's deferred recover
converts a body panic into `FailSession`, but when the session is
already terminal (here: cancelled concurrently while the task was in
flight) that `FailSession` itself panics on the double queue close;
since it runs inside the deferred handler after `recover` has fired, the
panic propagates out of the task — both for a panicking body and for the
ordinary error path (whose first `FailSession` panic is recovered, after
which the handler's second `FailSession` panics again). -/
theorem background_task_panic_escapes :
    (backgroundTask (fun st => (st, BodyResult.panicked "boom")) terminalStateB "s1" 300).2 =
      some "close of closed channel" ∧
    (backgroundTask (fun st => (st, BodyResult.err "request failed: session cancelled"))
      terminalStateB "s1" 300).2 = some "close of closed channel" := by
  decide

theorem getD_append_length (l : List α) (a d : α) : (l ++ [a]).getD l.length d = a := by
  induction l with
  | nil => rfl
  | cons hd tl ih => simp [ih]

theorem shouldSaveResult_false (inst : Conversation) (result : String)
    (hlen : GetMessageLength inst > 0)
    (hrole : (GetMessageById inst (GetMessageLength inst - 1)).role = Assistant)
    (hcontent : (GetMessageById inst (GetMessageLength inst - 1)).content = result) :
    shouldSaveResult inst result = false := by
  simp [shouldSaveResult, hlen, hrole, hcontent]

theorem shouldSaveResult_after_save (inst : Conversation) (result : String) :
    shouldSaveResult (SaveResponse inst result) result = false := by
  apply shouldSaveResult_false
  · simp [GetMessageLength, SaveResponse]
  · simp [GetMessageById, GetMessageLength, SaveResponse, getD_append_length]
  · simp [GetMessageById, GetMessageLength, SaveResponse, getD_append_length]

theorem persistResult_guarded (uid : Int) (inst : Conversation) (result : String)
    (hsk : shouldSaveResult inst result = false) :
    persistResultStep uid (some inst) result = (some inst, false) := by
  by_cases huid : uid = -1
  · simp [persistResultStep, huid]
  · simp [persistResultStep, huid, hsk]

/-- C8: the accumulated result is appended to the conversation store only
when the latest stored message is not already an assistant message with
identical content — when it is, the store is returned untouched — and
therefore running the persistence step a second time with the same result
never writes again (second invocation flag is always `false` and the
store is unchanged), i.e. the store is touched at most once. -/
theorem persistResult_idempotent :
    (∀ (uid : Int) (inst : Conversation) (result : String),
      GetMessageLength inst > 0 →
      (GetMessageById inst (GetMessageLength inst - 1)).role = Assistant →
      (GetMessageById inst (GetMessageLength inst - 1)).content = result →
      persistResultStep uid (some inst) result = (some inst, false)) ∧
    (∀ (uid : Int) (conv : Option Conversation) (result : String),
      (persistResultStep uid (persistResultStep uid conv result).1 result).1 =
        (persistResultStep uid conv result).1 ∧
      (persistResultStep uid (persistResultStep uid conv result).1 result).2 = false) := by
  constructor
  · intro uid inst result hlen hrole hcontent
    exact persistResult_guarded uid inst result
      (shouldSaveResult_false inst result hlen hrole hcontent)
  · intro uid conv result
    by_cases huid : uid = -1
    · simp [persistResultStep, huid]
    · cases conv with
      | none => simp [persistResultStep, huid]
      | some inst =>
        by_cases hsv : shouldSaveResult inst result = true
        · have h1 : persistResultStep uid (some inst) result =
              (some (SaveResponse inst result), true) := by
            simp [persistResultStep, huid, hsv]
          rw [h1]
          have h2 := persistResult_guarded uid (SaveResponse inst result) result
            (shouldSaveResult_after_save inst result)
          simp [h2]
        · have hsk : shouldSaveResult inst result = false := by
            simpa using hsv
          have h1 := persistResult_guarded uid inst result hsk
          rw [h1]
          simp [h1]

theorem persistResult_idempotent_witness :
    persistResultStep 7 (some { messages := [{ role := "user", content := "hi" },
      { role := Assistant, content := "Hello" }] }) "Hello" =
      (some { messages := [{ role := "user", content := "hi" },
        { role := Assistant, content := "Hello" }] }, false) ∧
    ((persistResultStep 7 (persistResultStep 7 (some { messages := [] }) "Hello").1 "Hello").1 =
      (persistResultStep 7 (some { messages := [] }) "Hello").1 ∧
    (persistResultStep 7 (persistResultStep 7 (some { messages := [] }) "Hello").1 "Hello").2 =
      false) :=
  ⟨persistResult_idempotent.1 7 _ "Hello" (by decide) (by decide) (by decide),
   persistResult_idempotent.2 7 (some { messages := [] }) "Hello"⟩

theorem chanOffer_closed (c : Chan α) (x : α) : (chanOffer c x).closed = c.closed := by
  unfold chanOffer
  split <;> rfl

/-- The runtime fields after a successful non-blocking offer. -/
def progressedRuntime (rt : Runtime) (frag : List Char) : Runtime :=
  { rt with progressStream := chanOffer rt.progressStream frag }

/-- The record written back by `UpdateSessionProgress` on a hit with an
open progress queue. -/
def progressedSession (s : ChatSession) (rt : Runtime) (frag : List Char) (now : Nat) :
    ChatSession :=
  { s with
    progress := frag
    totalProgress := s.totalProgress ++ frag
    lastActivity := now
    runtime := some (progressedRuntime rt frag) }

/-- The runtime fields after both queues were closed by a terminal
transition. -/
def closedRuntime (rt : Runtime) : Runtime :=
  { rt with
    progressStream := { rt.progressStream with closed := true }
    resultStream := { rt.resultStream with closed := true } }

/-- The record written back by `CompleteSession` on a hit with both
queues open. -/
def finishedSession (s : ChatSession) (rt : Runtime) (result : String) (quota : Rat)
    (now : Nat) : ChatSession :=
  { s with
    status := .completed
    result := result
    quota := quota
    completedAt := some now
    lastActivity := now
    runtime := some (closedRuntime rt) }

/-- `UpdateSessionProgress` on a registered session whose progress queue
is open: the record is mutated (fragment appended to `totalProgress`,
`progress` overwritten, activity touched), the fragment is offered to the
queue, a snapshot write is scheduled, and no panic occurs. -/
theorem updateSessionProgress_open (st : SMState) (sessionID : String)
    (frag : List Char) (now : Nat) (s : ChatSession) (rt : Runtime)
    (hs : assocGet sessionID st.sessions = some s)
    (hrt : s.runtime = some rt)
    (hp : rt.progressStream.closed = false) :
    UpdateSessionProgress st sessionID frag now =
      (saveSessionToCache
        { st with sessions := assocSet sessionID (progressedSession s rt frag now) st.sessions }
        (progressedSession s rt frag now),
      none) := by
  simp [UpdateSessionProgress, hs, hrt, hp, progressedSession, progressedRuntime]

/-- `CompleteSession` on a registered session whose two queues are open:
the terminal fields are written, both queues are closed for the first
time, a final snapshot is persisted, and no panic occurs. -/
theorem completeSession_open (st : SMState) (sessionID : String) (result : String)
    (quota : Rat) (now : Nat) (s : ChatSession) (rt : Runtime)
    (hs : assocGet sessionID st.sessions = some s)
    (hrt : s.runtime = some rt)
    (hp : rt.progressStream.closed = false)
    (hr : rt.resultStream.closed = false) :
    CompleteSession st sessionID result quota now =
      (saveSessionToCache
        { st with sessions := assocSet sessionID (finishedSession s rt result quota now) st.sessions }
        (finishedSession s rt result quota now),
      none) := by
  simp [CompleteSession, hs, hrt, closeStreams, hp, hr, finishedSession, closedRuntime]

/-- The registry state in which the C6 counterexample is evaluated: one
processing session with fresh runtime fields. -/
def planStateC6 : SMState :=
  { sessions := [("s1",
      { id := "s1"
        conversationID := 42
        userID := 7
        status := .processing
        progress := []
        totalProgress := "Hel".data
        lastActivity := 40
        createdAt := 30
        completedAt := none
        model := "m"
        messages := []
        result := ""
        error := ""
        quota := 0
        runtime := some freshRuntime })]
    cache := none }

/-- C6 counterexample: the model request succeeds *without* a cache hit
(`.success false`), yet the quota-collection collaborator is not invoked
because the request is covered by the subscription plan (`plan = true`):
the code guards the collection with `if !hit && !plan`, not with `!hit`
alone, so "invoked iff not served from the cache-hit path" is false. -/
theorem quota_skipped_without_cache_hit :
    ¬ ((finishRequest planStateC6 "s1" 7 50 (ChatRequestOutcome.success false) true
        "res" 1 none).quotaCollected = true) := by
  decide

/-- C6 amended: on a successful model request the quota-collection
collaborator is invoked iff the result was not served from the cache-hit
path **and** the request is not covered by the subscription plan (in
particular, on a cache hit no quota is collected), and the session is
then completed: status Completed, the final text stored as `result`, the
charged quota stored, `completed_at` set, after the final progress
fragment was appended — with no panic. -/
theorem finishRequest_quota_and_completion (st : SMState) (sessionID : String)
    (userID : Int) (now : Nat) (hit plan : Bool) (result : String) (quota : Rat)
    (conv : Option Conversation) (s : ChatSession) (rt : Runtime)
    (hs : assocGet sessionID st.sessions = some s)
    (hrt : s.runtime = some rt)
    (hp : rt.progressStream.closed = false)
    (hr : rt.resultStream.closed = false) :
    (finishRequest st sessionID userID now (.success hit) plan result quota conv).quotaCollected
      = (!hit && !plan) ∧
    (hit = true →
      (finishRequest st sessionID userID now (.success hit) plan result quota
        conv).quotaCollected = false) ∧
    (finishRequest st sessionID userID now (.success hit) plan result quota conv).panicMsg
      = none ∧
    (∃ s', assocGet sessionID
        (finishRequest st sessionID userID now (.success hit) plan result quota
          conv).state.sessions = some s' ∧
      s'.status = .completed ∧ s'.result = result ∧ s'.quota = quota ∧
      s'.completedAt = some now ∧
      s'.totalProgress = s.totalProgress ++ "响应完成！".data) := by
  have hupd := updateSessionProgress_open st sessionID "响应完成！".data now s rt hs hrt hp
  have hmid : assocGet sessionID
      (saveSessionToCache
        { st with sessions := assocSet sessionID (progressedSession s rt "响应完成！".data now) st.sessions }
        (progressedSession s rt "响应完成！".data now)).sessions
      = some (progressedSession s rt "响应完成！".data now) := by
    rw [sessions_saveSessionToCache]
    exact assocGet_assocSet_self _ _ _
  have hp2 : (progressedRuntime rt "响应完成！".data).progressStream.closed = false := by
    simp [progressedRuntime, chanOffer_closed, hp]
  have hr2 : (progressedRuntime rt "响应完成！".data).resultStream.closed = false := hr
  have hcomp := completeSession_open
    (saveSessionToCache
      { st with sessions := assocSet sessionID (progressedSession s rt "响应完成！".data now) st.sessions }
      (progressedSession s rt "响应完成！".data now))
    sessionID result quota now (progressedSession s rt "响应完成！".data now)
    (progressedRuntime rt "响应完成！".data) hmid rfl hp2 hr2
  rcases hpr : persistResultStep userID conv result with ⟨conv', saved⟩
  refine ⟨?_, ?_, ?_, ?_⟩
  · simp [finishRequest, hpr, hupd, hcomp]
  · intro hh
    simp [finishRequest, hpr, hupd, hcomp, hh]
  · simp [finishRequest, hpr, hupd, hcomp]
  · refine ⟨finishedSession (progressedSession s rt "响应完成！".data now)
      (progressedRuntime rt "响应完成！".data) result quota now, ?_, rfl, rfl, rfl, rfl, rfl⟩
    simp [finishRequest, hpr, hupd, hcomp, sessions_saveSessionToCache,
      assocGet_assocSet_self]

theorem finishRequest_quota_and_completion_witness :
    ((finishRequest planStateC6 "s1" 7 50 (.success false) false "res" 1 none).quotaCollected
      = (!false && !false)) ∧
    (false = true →
      (finishRequest planStateC6 "s1" 7 50 (.success false) false "res" 1
        none).quotaCollected = false) ∧
    (finishRequest planStateC6 "s1" 7 50 (.success false) false "res" 1 none).panicMsg
      = none ∧
    (∃ s', assocGet "s1"
        (finishRequest planStateC6 "s1" 7 50 (.success false) false "res" 1
          none).state.sessions = some s' ∧
      s'.status = .completed ∧ s'.result = "res" ∧ s'.quota = 1 ∧
      s'.completedAt = some 50 ∧
      s'.totalProgress = "Hel".data ++ "响应完成！".data) :=
  finishRequest_quota_and_completion planStateC6 "s1" 7 50 false false "res" 1 none
    _ freshRuntime rfl rfl rfl rfl

theorem createSession_sessions (st : SMState) (sessionID : String) (now : Nat)
    (userID conversationID : Int) (model : String) (messages : List Message) :
    (CreateSession st sessionID now userID conversationID model messages).1.sessions =
      assocSet sessionID
        (CreateSession st sessionID now userID conversationID model messages).2
        st.sessions := by
  simp [CreateSession, sessions_saveSessionToCache]

theorem filter_singleton_length_le (p : α → Bool) (v : α) :
    (List.filter p [v]).length ≤ 1 := by
  cases h : p v <;> simp [h]

/-- One fresh `StartPersistentChat` call preserves the single-flight
invariant: on a duplicate it leaves the state alone, otherwise the newly
inserted Pending record is the only active one for its pair precisely
because `GetConversationSession` found none. -/
theorem applyStart_activeUnique (st : SMState) (cl : StartCall)
    (hfresh : (assocGet cl.newSessionID st.sessions).isNone = true)
    (hau : ActiveUnique st) : ActiveUnique (applyStart st cl) := by
  unfold applyStart StartPersistentChat
  rcases hgc : GetConversationSession st cl.userID cl.conversationID with _ | ex
  · have habs : assocGet cl.newSessionID st.sessions = none := by
      cases h : assocGet cl.newSessionID st.sessions with
      | none => rfl
      | some v => rw [h] at hfresh; simp at hfresh
    have hnone : ∀ s ∈ st.sessions.map Prod.snd,
        ¬ (activeFor cl.userID cl.conversationID s = true) := by
      have := List.find?_eq_none.mp hgc
      simpa using this
    intro u c
    simp only [hgc]
    rw [createSession_sessions, assocSet_absent _ _ _ habs]
    simp only [List.map_append, List.filter_append, List.length_append, List.map_cons,
      List.map_nil]
    by_cases hpair : u = cl.userID ∧ c = cl.conversationID
    · obtain ⟨hu, hc⟩ := hpair
      subst hu; subst hc
      have hzero : (st.sessions.map Prod.snd).filter
          (activeFor cl.userID cl.conversationID) = [] := by
        apply List.filter_eq_nil_iff.mpr
        intro a ha
        exact fun hcontra => hnone a ha hcontra
      rw [hzero]
      simpa using filter_singleton_length_le _ _
    · have hnew : activeFor u c
          (CreateSession st cl.newSessionID cl.now cl.userID cl.conversationID cl.model
            cl.messages).2 = false := by
        unfold activeFor
        have hid : (CreateSession st cl.newSessionID cl.now cl.userID cl.conversationID
            cl.model cl.messages).2.userID = cl.userID := rfl
        have hcid : (CreateSession st cl.newSessionID cl.now cl.userID cl.conversationID
            cl.model cl.messages).2.conversationID = cl.conversationID := rfl
        rw [hid, hcid]
        rcases not_and_or.mp hpair with hu | hc
        · have hne : (cl.userID == u) = false :=
            beq_eq_false_iff_ne.mpr (fun h => hu h.symm)
          simp [hne]
        · have hne : (cl.conversationID == c) = false :=
            beq_eq_false_iff_ne.mpr (fun h => hc h.symm)
          simp [hne]
      simp only [List.filter, hnew, List.length_nil, Nat.add_zero]
      simpa using hau u c
  · simp only [hgc]
    exact hau

/-- C2: (i) starting from any state satisfying the single-flight
invariant, any sequence of `StartPersistentChat` calls (with fresh
uuids) preserves it — at most one Pending/Processing record per (user,
conversation) pair; (ii) a creation attempt while that pair already has
an active session returns the duplicate-active-session error carrying
the existing session's id and leaves the state completely unchanged (no
new record). -/
theorem startPersistentChat_single_flight :
    (∀ (st : SMState) (cs : List StartCall), freshStarts st cs = true →
      ActiveUnique st → ActiveUnique (applyStarts st cs)) ∧
    (∀ (st : SMState) (nid : String) (now : Nat) (u c : Int) (model : String)
        (msgs : List Message) (ex : ChatSession),
      GetConversationSession st u c = some ex →
      StartPersistentChat st nid now u c model msgs =
        (st, Except.error ("conversation already has an active session: " ++ ex.id))) := by
  constructor
  · intro st cs
    induction cs generalizing st with
    | nil => intro _ hau; exact hau
    | cons cl rest ih =>
      intro hf hau
      rw [freshStarts, Bool.and_eq_true] at hf
      exact ih (applyStart st cl) hf.2 (applyStart_activeUnique st cl hf.1 hau)
  · intro st nid now u c model msgs ex hgc
    simp [StartPersistentChat, hgc]

/-- A registry already holding one active (pending) session for user 7,
conversation 42. -/
def pendingSessA : ChatSession :=
  { id := "a1"
    conversationID := 42
    userID := 7
    status := .pending
    progress := []
    totalProgress := []
    lastActivity := 10
    createdAt := 10
    completedAt := none
    model := "m"
    messages := []
    result := ""
    error := ""
    quota := 0
    runtime := some freshRuntime }

def singleActiveState : SMState :=
  { sessions := [("a1", pendingSessA)], cache := none }

theorem startPersistentChat_single_flight_witness :
    ActiveUnique (applyStarts { sessions := [], cache := none }
      [{ newSessionID := "a1", now := 10, userID := 7, conversationID := 42,
         model := "m", messages := [] }]) ∧
    StartPersistentChat singleActiveState "b2" 20 7 42 "m" [] =
      (singleActiveState,
        Except.error ("conversation already has an active session: " ++ pendingSessA.id)) :=
  ⟨startPersistentChat_single_flight.1 _ _ (by decide)
      (by intro u c; simp [ActiveUnique]),
   startPersistentChat_single_flight.2 singleActiveState "b2" 20 7 42 "m" [] pendingSessA
      (by decide)⟩

theorem assocGet_none_not_mem (k : String) (l : List (String × α))
    (h : assocGet k l = none) : k ∉ l.map Prod.fst := by
  induction l with
  | nil => simp
  | cons hd tl ih =>
    obtain ⟨k₁, v₁⟩ := hd
    by_cases hk : k₁ = k
    · simp [assocGet, hk] at h
    · simp [assocGet, hk] at h
      simp [ih h]
      exact fun he => hk he.symm

theorem nodup_assocSet (k : String) (v : α) (l : List (String × α))
    (hnd : (l.map Prod.fst).Nodup) : ((assocSet k v l).map Prod.fst).Nodup := by
  cases h : assocGet k l with
  | some w =>
    rw [keys_assocSet_present k v l (by simp [h])]
    exact hnd
  | none =>
    rw [assocSet_absent k v l h]
    simp only [List.map_append, List.map_cons, List.map_nil]
    rw [List.nodup_append]
    refine ⟨hnd, List.nodup_singleton k, ?_⟩
    intro a ha hb
    simp at hb
    subst hb
    exact assocGet_none_not_mem a l h ha

theorem assocGet_filter_nodup (k : String) (p : String × α → Bool)
    (l : List (String × α)) (v : α) (hnd : (l.map Prod.fst).Nodup)
    (h : assocGet k (l.filter p) = some v) : assocGet k l = some v := by
  induction l with
  | nil => exact h
  | cons hd tl ih =>
    obtain ⟨k₁, v₁⟩ := hd
    simp only [List.map_cons, List.nodup_cons] at hnd
    by_cases hk : k₁ = k
    · subst hk
      cases hp : p (k₁, v₁) with
      | true =>
        rw [List.filter_cons_of_pos hp] at h
        simp [assocGet] at h ⊢
        exact h
      | false =>
        rw [List.filter_cons_of_neg (by simp [hp])] at h
        exfalso
        have habs : assocGet k₁ (tl.filter p) = none := by
          apply assocGet_not_mem
          intro hmem
          exact hnd.1 (by
            have hsub : (tl.filter p).map Prod.fst ⊆ tl.map Prod.fst :=
              List.map_subset _ ((List.filter_sublist tl).subset)
            exact hsub hmem)
        rw [habs] at h
        cases h
    · cases hp : p (k₁, v₁) with
      | true =>
        rw [List.filter_cons_of_pos hp] at h
        simp only [assocGet, hk, if_false] at h ⊢
        exact ih hnd.2 h
      | false =>
        rw [List.filter_cons_of_neg (by simp [hp])] at h
        simp only [assocGet, hk, if_false]
        exact ih hnd.2 h

/-- Every registry operation either leaves the session map alone,
updates/inserts exactly one key, or removes entries by a filter. -/
theorem applyOp_sessions_shape (st : SMState) (op : RegistryOp) :
    (applyOp st op).sessions = st.sessions ∨
    (∃ k v, (applyOp st op).sessions = assocSet k v st.sessions) ∨
    (∃ p, (applyOp st op).sessions = st.sessions.filter p) := by
  cases op with
  | create sessionID now u c m msgs =>
    right; left
    exact ⟨sessionID, _, createSession_sessions st sessionID now u c m msgs⟩
  | get sessionID now =>
    cases h : assocGet sessionID st.sessions with
    | none => left; simp [applyOp, GetSession, h]
    | some t =>
      right; left
      exact ⟨sessionID, _, by simp [applyOp, GetSession, h]; rfl⟩
  | update sessionID frag now =>
    cases h : assocGet sessionID st.sessions with
    | none => left; simp [applyOp, UpdateSessionProgress, h]
    | some t =>
      right; left
      cases hrt : t.runtime with
      | none =>
        exact ⟨sessionID, _, by
          simp [applyOp, UpdateSessionProgress, h, hrt, sessions_saveSessionToCache]; rfl⟩
      | some rt =>
        by_cases hcl : rt.progressStream.closed
        · exact ⟨sessionID, _, by simp [applyOp, UpdateSessionProgress, h, hrt, hcl]; rfl⟩
        · exact ⟨sessionID, _, by
            simp [applyOp, UpdateSessionProgress, h, hrt, hcl, sessions_saveSessionToCache]
            rfl⟩
  | complete sessionID r q now =>
    cases h : assocGet sessionID st.sessions with
    | none => left; simp [applyOp, CompleteSession, h]
    | some t =>
      right; left
      rcases hcs : closeStreams t.runtime with ⟨rt', pm⟩
      cases pm with
      | none =>
        exact ⟨sessionID, _, by
          simp [applyOp, CompleteSession, h, hcs, sessions_saveSessionToCache]
          rfl⟩
      | some p =>
        exact ⟨sessionID, _, by simp [applyOp, CompleteSession, h, hcs]; rfl⟩
  | fail sessionID msg now =>
    cases h : assocGet sessionID st.sessions with
    | none => left; simp [applyOp, FailSession, h]
    | some t =>
      right; left
      rcases hcs : closeStreams t.runtime with ⟨rt', pm⟩
      cases pm with
      | none =>
        exact ⟨sessionID, _, by
          simp [applyOp, FailSession, h, hcs, sessions_saveSessionToCache]
          rfl⟩
      | some p =>
        exact ⟨sessionID, _, by simp [applyOp, FailSession, h, hcs]; rfl⟩
  | cancel sessionID now =>
    cases h : assocGet sessionID st.sessions with
    | none => left; simp [applyOp, CancelSession, h]
    | some t =>
      right; left
      rcases hcs : closeStreams (t.runtime.map
        (fun (rt : Runtime) => { rt with ctxCancelled := true })) with ⟨rt', pm⟩
      cases pm with
      | none =>
        exact ⟨sessionID, _, by
          simp [applyOp, CancelSession, h, hcs, sessions_saveSessionToCache]
          rfl⟩
      | some p =>
        exact ⟨sessionID, _, by simp [applyOp, CancelSession, h, hcs]; rfl⟩
  | cleanup now =>
    right; right
    exact ⟨_, rfl⟩

theorem nodup_applyOp (st : SMState) (op : RegistryOp)
    (hnd : (st.sessions.map Prod.fst).Nodup) :
    (((applyOp st op).sessions).map Prod.fst).Nodup := by
  rcases applyOp_sessions_shape st op with h | ⟨k, v, h⟩ | ⟨p, h⟩
  · rw [h]; exact hnd
  · rw [h]; exact nodup_assocSet k v st.sessions hnd
  · rw [h]
    exact ((List.filter_sublist st.sessions).map Prod.fst).nodup hnd

theorem updateSessionProgress_sessions_ne (st : SMState) (tid : String)
    (frag : List Char) (now : Nat) (id : String) (hne : tid ≠ id) :
    assocGet id (UpdateSessionProgress st tid frag now).1.sessions =
      assocGet id st.sessions := by
  cases h : assocGet tid st.sessions with
  | none => simp [UpdateSessionProgress, h]
  | some t =>
    cases hrt : t.runtime with
    | none =>
      simp [UpdateSessionProgress, h, hrt, sessions_saveSessionToCache,
        assocGet_assocSet_ne id tid hne]
    | some rt =>
      by_cases hcl : rt.progressStream.closed
      · simp [UpdateSessionProgress, h, hrt, hcl, assocGet_assocSet_ne id tid hne]
      · simp [UpdateSessionProgress, h, hrt, hcl, sessions_saveSessionToCache,
          assocGet_assocSet_ne id tid hne]

theorem completeSession_sessions_ne (st : SMState) (tid r : String) (q : Rat)
    (now : Nat) (id : String) (hne : tid ≠ id) :
    assocGet id (CompleteSession st tid r q now).1.sessions = assocGet id st.sessions := by
  cases h : assocGet tid st.sessions with
  | none => simp [CompleteSession, h]
  | some t =>
    rcases hcs : closeStreams t.runtime with ⟨rt', pm⟩
    cases pm <;>
      simp [CompleteSession, h, hcs, sessions_saveSessionToCache,
        assocGet_assocSet_ne id tid hne]

theorem failSession_sessions_ne (st : SMState) (tid msg : String) (now : Nat)
    (id : String) (hne : tid ≠ id) :
    assocGet id (FailSession st tid msg now).1.sessions = assocGet id st.sessions := by
  cases h : assocGet tid st.sessions with
  | none => simp [FailSession, h]
  | some t =>
    rcases hcs : closeStreams t.runtime with ⟨rt', pm⟩
    cases pm <;>
      simp [FailSession, h, hcs, sessions_saveSessionToCache,
        assocGet_assocSet_ne id tid hne]

theorem cancelSession_sessions_ne (st : SMState) (tid : String) (now : Nat)
    (id : String) (hne : tid ≠ id) :
    assocGet id (CancelSession st tid now).1.sessions = assocGet id st.sessions := by
  cases h : assocGet tid st.sessions with
  | none => simp [CancelSession, h]
  | some t =>
    rcases hcs : closeStreams (t.runtime.map
      (fun (rt : Runtime) => { rt with ctxCancelled := true })) with ⟨rt', pm⟩
    cases pm <;>
      simp [CancelSession, h, hcs, sessions_saveSessionToCache,
        assocGet_assocSet_ne id tid hne]

/-- The record written back by `UpdateSessionProgress` when no offer to
the queue happens (nil runtime, or a closed queue whose send panics after
the mutations). -/
def bareProgressedSession (s : ChatSession) (frag : List Char) (now : Nat) : ChatSession :=
  { s with
    progress := frag
    totalProgress := s.totalProgress ++ frag
    lastActivity := now }

/-- `UpdateSessionProgress` on a registered session, full record
characterization: `progress` is overwritten with the fragment,
`totalProgress` grows by exactly the fragment, and when the progress
queue exists and is open the fragment is offered to it non-blockingly
(`chanOffer` drops it silently when the queue is full). -/
theorem updateSessionProgress_record (st : SMState) (sessionID : String)
    (frag : List Char) (now : Nat) (s : ChatSession)
    (hs : assocGet sessionID st.sessions = some s) :
    ∃ s', assocGet sessionID (UpdateSessionProgress st sessionID frag now).1.sessions
        = some s' ∧
      s'.progress = frag ∧
      s'.totalProgress = s.totalProgress ++ frag ∧
      (∀ rt : Runtime, s.runtime = some rt → rt.progressStream.closed = false →
        s'.runtime = some (progressedRuntime rt frag)) := by
  cases hrt : s.runtime with
  | none =>
    refine ⟨bareProgressedSession s frag now, ?_, rfl, rfl, ?_⟩
    · simp [UpdateSessionProgress, hs, hrt, sessions_saveSessionToCache,
        assocGet_assocSet_self, bareProgressedSession]
    · intro rt h hc
      cases h
  | some rt =>
    by_cases hcl : rt.progressStream.closed
    · refine ⟨bareProgressedSession s frag now, ?_, rfl, rfl, ?_⟩
      · simp [UpdateSessionProgress, hs, hrt, hcl, assocGet_assocSet_self,
          bareProgressedSession]
      · intro rt' h hc
        injection h with h'
        subst h'
        rw [hcl] at hc
        cases hc
    · refine ⟨progressedSession s rt frag now, ?_, rfl, rfl, ?_⟩
      · have hlem := updateSessionProgress_open st sessionID frag now s rt hs hrt
          (by simpa using hcl)
        rw [hlem]
        simp [sessions_saveSessionToCache, assocGet_assocSet_self]
      · intro rt' h hc
        injection h with h'
        subst h'
        rfl

/-- The record written back by `CompleteSession` on a hit, with whatever
the close pair produced as runtime. -/
def completedRecordOf (s : ChatSession) (r : String) (q : Rat) (now : Nat)
    (rt' : Option Runtime) : ChatSession :=
  { s with
    status := .completed
    result := r
    quota := q
    completedAt := some now
    lastActivity := now
    runtime := rt' }

/-- The record written back by `FailSession` on a hit. -/
def failedRecordOf (s : ChatSession) (msg : String) (now : Nat)
    (rt' : Option Runtime) : ChatSession :=
  { s with
    status := .error
    error := msg
    completedAt := some now
    lastActivity := now
    runtime := rt' }

/-- The record written back by `CancelSession` on a hit. -/
def cancelledRecordOf (s : ChatSession) (now : Nat) (rt' : Option Runtime) : ChatSession :=
  { s with
    status := .cancelled
    completedAt := some now
    lastActivity := now
    runtime := rt' }

theorem getSession_get (st : SMState) (tid : String) (now : Nat) (id : String)
    (s : ChatSession) (hs : assocGet id st.sessions = some s) :
    ∃ s', assocGet id (GetSession st tid now).1.sessions = some s' ∧
      s'.totalProgress = s.totalProgress := by
  by_cases htid : tid = id
  · subst htid
    exact ⟨{ s with lastActivity := now },
      by simp [GetSession, hs, assocGet_assocSet_self], rfl⟩
  · cases h : assocGet tid st.sessions with
    | none => exact ⟨s, by simp [GetSession, h, hs], rfl⟩
    | some t =>
      exact ⟨s, by simp [GetSession, h, assocGet_assocSet_ne id tid htid, hs], rfl⟩

theorem completeSession_get (st : SMState) (tid r : String) (q : Rat) (now : Nat)
    (id : String) (s : ChatSession) (hs : assocGet id st.sessions = some s) :
    ∃ s', assocGet id (CompleteSession st tid r q now).1.sessions = some s' ∧
      s'.totalProgress = s.totalProgress := by
  by_cases htid : tid = id
  · subst htid
    rcases hcs : closeStreams s.runtime with ⟨rt', pm⟩
    cases pm with
    | none =>
      exact ⟨completedRecordOf s r q now rt',
        by simp [CompleteSession, hs, hcs, sessions_saveSessionToCache,
          assocGet_assocSet_self, completedRecordOf], rfl⟩
    | some p =>
      exact ⟨completedRecordOf s r q now rt',
        by simp [CompleteSession, hs, hcs, assocGet_assocSet_self, completedRecordOf], rfl⟩
  · refine ⟨s, ?_, rfl⟩
    rw [completeSession_sessions_ne st tid r q now id htid]
    exact hs

theorem failSession_get (st : SMState) (tid msg : String) (now : Nat)
    (id : String) (s : ChatSession) (hs : assocGet id st.sessions = some s) :
    ∃ s', assocGet id (FailSession st tid msg now).1.sessions = some s' ∧
      s'.totalProgress = s.totalProgress := by
  by_cases htid : tid = id
  · subst htid
    rcases hcs : closeStreams s.runtime with ⟨rt', pm⟩
    cases pm with
    | none =>
      exact ⟨failedRecordOf s msg now rt',
        by simp [FailSession, hs, hcs, sessions_saveSessionToCache,
          assocGet_assocSet_self, failedRecordOf], rfl⟩
    | some p =>
      exact ⟨failedRecordOf s msg now rt',
        by simp [FailSession, hs, hcs, assocGet_assocSet_self, failedRecordOf], rfl⟩
  · refine ⟨s, ?_, rfl⟩
    rw [failSession_sessions_ne st tid msg now id htid]
    exact hs

theorem cancelSession_get (st : SMState) (tid : String) (now : Nat)
    (id : String) (s : ChatSession) (hs : assocGet id st.sessions = some s) :
    ∃ s', assocGet id (CancelSession st tid now).1.sessions = some s' ∧
      s'.totalProgress = s.totalProgress := by
  by_cases htid : tid = id
  · subst htid
    rcases hcs : closeStreams (s.runtime.map
      (fun (rt : Runtime) => { rt with ctxCancelled := true })) with ⟨rt', pm⟩
    cases pm with
    | none =>
      exact ⟨cancelledRecordOf s now rt',
        by simp [CancelSession, hs, hcs, sessions_saveSessionToCache,
          assocGet_assocSet_self, cancelledRecordOf], rfl⟩
    | some p =>
      exact ⟨cancelledRecordOf s now rt',
        by simp [CancelSession, hs, hcs, assocGet_assocSet_self, cancelledRecordOf], rfl⟩
  · refine ⟨s, ?_, rfl⟩
    rw [cancelSession_sessions_ne st tid now id htid]
    exact hs

/-- Whether the operation is a `create` targeting the given id: the
lifetime of a record ends if a colliding create replaces it, so the
whole-lifetime monotonicity statement excludes such creates (in the real
system `uuid.New()` never reuses an id). -/
def createsId (id : String) : RegistryOp → Bool
  | .create cid _ _ _ _ _ => cid == id
  | _ => false

theorem applyOp_absent (st : SMState) (op : RegistryOp) (id : String)
    (hni : createsId id op = false)
    (h : assocGet id st.sessions = none) :
    assocGet id (applyOp st op).sessions = none := by
  cases op with
  | create cid now u c m msgs =>
    have hne : cid ≠ id := by simpa [createsId] using hni
    show assocGet id (CreateSession st cid now u c m msgs).1.sessions = none
    rw [createSession_sessions, assocGet_assocSet_ne id cid hne]
    exact h
  | get tid now =>
    by_cases htid : tid = id
    · subst htid
      simp [applyOp, GetSession, h]
    · cases hg : assocGet tid st.sessions with
      | none => simp [applyOp, GetSession, hg, h]
      | some t => simp [applyOp, GetSession, hg, assocGet_assocSet_ne id tid htid, h]
  | update tid frag now =>
    by_cases htid : tid = id
    · subst htid
      simp [applyOp, UpdateSessionProgress, h]
    · show assocGet id (UpdateSessionProgress st tid frag now).1.sessions = none
      rw [updateSessionProgress_sessions_ne st tid frag now id htid]
      exact h
  | complete tid r q now =>
    by_cases htid : tid = id
    · subst htid
      simp [applyOp, CompleteSession, h]
    · show assocGet id (CompleteSession st tid r q now).1.sessions = none
      rw [completeSession_sessions_ne st tid r q now id htid]
      exact h
  | fail tid msg now =>
    by_cases htid : tid = id
    · subst htid
      simp [applyOp, FailSession, h]
    · show assocGet id (FailSession st tid msg now).1.sessions = none
      rw [failSession_sessions_ne st tid msg now id htid]
      exact h
  | cancel tid now =>
    by_cases htid : tid = id
    · subst htid
      simp [applyOp, CancelSession, h]
    · show assocGet id (CancelSession st tid now).1.sessions = none
      rw [cancelSession_sessions_ne st tid now id htid]
      exact h
  | cleanup now =>
    apply assocGet_not_mem
    intro hmem
    have hsub : ((applyOp st (.cleanup now)).sessions).map Prod.fst ⊆
        st.sessions.map Prod.fst :=
      List.map_subset _ ((List.filter_sublist st.sessions).subset)
    exact assocGet_none_not_mem id st.sessions h (hsub hmem)

theorem applyOp_mono_step (st : SMState) (op : RegistryOp) (id : String)
    (s s' : ChatSession) (hnd : (st.sessions.map Prod.fst).Nodup)
    (hni : createsId id op = false)
    (hs : assocGet id st.sessions = some s)
    (hs' : assocGet id (applyOp st op).sessions = some s') :
    s.totalProgress.length ≤ s'.totalProgress.length := by
  cases op with
  | create cid now u c m msgs =>
    have hne : cid ≠ id := by simpa [createsId] using hni
    have hx : assocGet id (CreateSession st cid now u c m msgs).1.sessions =
        assocGet id st.sessions := by
      rw [createSession_sessions, assocGet_assocSet_ne id cid hne]
    rw [show (applyOp st (.create cid now u c m msgs)).sessions =
      (CreateSession st cid now u c m msgs).1.sessions from rfl, hx, hs] at hs'
    injection hs' with h'
    exact le_of_eq (by rw [h'])
  | get tid now =>
    obtain ⟨t', hget, htp⟩ := getSession_get st tid now id s hs
    rw [show (applyOp st (.get tid now)).sessions = (GetSession st tid now).1.sessions
      from rfl, hget] at hs'
    injection hs' with h'
    exact le_of_eq (by rw [← h', htp])
  | update tid frag now =>
    by_cases htid : tid = id
    · subst tid
      obtain ⟨t', hget, _, htp, _⟩ := updateSessionProgress_record st id frag now s hs
      rw [show (applyOp st (.update id frag now)).sessions =
        (UpdateSessionProgress st id frag now).1.sessions from rfl, hget] at hs'
      injection hs' with h'
      rw [← h', htp]
      simp
    · rw [show (applyOp st (.update tid frag now)).sessions =
        (UpdateSessionProgress st tid frag now).1.sessions from rfl,
        updateSessionProgress_sessions_ne st tid frag now id htid, hs] at hs'
      injection hs' with h'
      exact le_of_eq (by rw [h'])
  | complete tid r q now =>
    obtain ⟨t', hget, htp⟩ := completeSession_get st tid r q now id s hs
    rw [show (applyOp st (.complete tid r q now)).sessions =
      (CompleteSession st tid r q now).1.sessions from rfl, hget] at hs'
    injection hs' with h'
    exact le_of_eq (by rw [← h', htp])
  | fail tid msg now =>
    obtain ⟨t', hget, htp⟩ := failSession_get st tid msg now id s hs
    rw [show (applyOp st (.fail tid msg now)).sessions =
      (FailSession st tid msg now).1.sessions from rfl, hget] at hs'
    injection hs' with h'
    exact le_of_eq (by rw [← h', htp])
  | cancel tid now =>
    obtain ⟨t', hget, htp⟩ := cancelSession_get st tid now id s hs
    rw [show (applyOp st (.cancel tid now)).sessions =
      (CancelSession st tid now).1.sessions from rfl, hget] at hs'
    injection hs' with h'
    exact le_of_eq (by rw [← h', htp])
  | cleanup now =>
    have hs'' : assocGet id (st.sessions.filter
        (fun kv => !(decide (now - kv.2.lastActivity > hourDuration)))) = some s' := hs'
    have hx := assocGet_filter_nodup id _ st.sessions s' hnd hs''
    rw [hs] at hx
    injection hx with h'
    exact le_of_eq (by rw [h'])

theorem applyOps_absent (ops : List RegistryOp) : ∀ (st : SMState) (id : String),
    (∀ op ∈ ops, createsId id op = false) →
    assocGet id st.sessions = none →
    assocGet id (applyOps st ops).sessions = none := by
  induction ops with
  | nil => intro st id _ h; exact h
  | cons op rest ih =>
    intro st id hni h
    have h1 := applyOp_absent st op id (hni op (List.mem_cons_self op rest)) h
    exact ih (applyOp st op) id (fun o ho => hni o (List.mem_cons_of_mem op ho)) h1

theorem applyOps_mono (ops : List RegistryOp) : ∀ (st : SMState) (id : String)
    (s s' : ChatSession), (st.sessions.map Prod.fst).Nodup →
    (∀ op ∈ ops, createsId id op = false) →
    assocGet id st.sessions = some s →
    assocGet id (applyOps st ops).sessions = some s' →
    s.totalProgress.length ≤ s'.totalProgress.length := by
  induction ops with
  | nil =>
    intro st id s s' _ _ hs hs'
    rw [show applyOps st [] = st from rfl, hs] at hs'
    injection hs' with h'
    exact le_of_eq (by rw [h'])
  | cons op rest ih =>
    intro st id s s' hnd hni hs hs'
    have hniop : createsId id op = false := hni op (List.mem_cons_self op rest)
    have hnirest : ∀ o ∈ rest, createsId id o = false :=
      fun o ho => hni o (List.mem_cons_of_mem op ho)
    have hnd' := nodup_applyOp st op hnd
    cases hmid : assocGet id (applyOp st op).sessions with
    | none =>
      exfalso
      have habs := applyOps_absent rest (applyOp st op) id hnirest hmid
      rw [show applyOps st (op :: rest) = applyOps (applyOp st op) rest from rfl] at hs'
      rw [habs] at hs'
      cases hs'
    | some smid =>
      have h1 := applyOp_mono_step st op id s smid hnd hniop hs hmid
      have h2 := ih (applyOp st op) id smid s' hnd' hnirest hmid
        (by rw [show applyOps st (op :: rest) = applyOps (applyOp st op) rest from rfl] at hs'
            exact hs')
      exact le_trans h1 h2

/-- C7: for every registered session, `UpdateSessionProgress` overwrites
`progress` with the fragment, extends `totalProgress` by exactly the
fragment, and — when the progress queue exists and is open — offers the
fragment to it via the non-blocking `chanOffer`, which silently drops the
fragment when the queue is at capacity (second conjunct); the operation
is a total function, so it never blocks.  Consequently (third conjunct),
over any sequence of registry operations that does not re-create the
observed id (a record's lifetime), the length of that record's
`totalProgress` is non-decreasing. -/
theorem updateProgress_append_and_monotone :
    (∀ (st : SMState) (sessionID : String) (frag : List Char) (now : Nat)
        (s : ChatSession), assocGet sessionID st.sessions = some s →
      ∃ s', assocGet sessionID
          (UpdateSessionProgress st sessionID frag now).1.sessions = some s' ∧
        s'.progress = frag ∧
        s'.totalProgress = s.totalProgress ++ frag ∧
        (∀ rt : Runtime, s.runtime = some rt → rt.progressStream.closed = false →
          s'.runtime = some (progressedRuntime rt frag))) ∧
    (∀ (c : Chan (List Char)) (x : List Char), ¬ c.buf.length < chanCap →
      chanOffer c x = c) ∧
    (∀ (ops : List RegistryOp) (st : SMState) (id : String) (s s' : ChatSession),
      (st.sessions.map Prod.fst).Nodup →
      (∀ op ∈ ops, createsId id op = false) →
      assocGet id st.sessions = some s →
      assocGet id (applyOps st ops).sessions = some s' →
      s.totalProgress.length ≤ s'.totalProgress.length) := by
  refine ⟨updateSessionProgress_record, ?_, applyOps_mono⟩
  intro c x h
  simp [chanOffer, h]

/-- The record of `singleActiveState` after
`UpdateSessionProgress "a1" "lo" 12`. -/
def updatedSessA : ChatSession :=
  { pendingSessA with
    progress := "lo".data
    totalProgress := "lo".data
    lastActivity := 12
    runtime := some
      { ctxCancelled := false
        progressStream := { buf := ["lo".data], closed := false }
        resultStream := { buf := [], closed := false } } }

/-- A progress queue at capacity. -/
def fullProgressChan : Chan (List Char) :=
  { buf := List.replicate chanCap ['x'], closed := false }

theorem updateProgress_append_and_monotone_witness :
    (∃ s', assocGet "a1" (UpdateSessionProgress singleActiveState "a1" "lo".data
        12).1.sessions = some s' ∧
      s'.progress = "lo".data ∧
      s'.totalProgress = pendingSessA.totalProgress ++ "lo".data ∧
      (∀ rt : Runtime, pendingSessA.runtime = some rt →
        rt.progressStream.closed = false →
        s'.runtime = some (progressedRuntime rt "lo".data))) ∧
    chanOffer fullProgressChan ['l'] = fullProgressChan ∧
    pendingSessA.totalProgress.length ≤ updatedSessA.totalProgress.length :=
  ⟨updateProgress_append_and_monotone.1 singleActiveState "a1" "lo".data 12
      pendingSessA rfl,
   updateProgress_append_and_monotone.2.1 fullProgressChan ['l'] (by decide),
   updateProgress_append_and_monotone.2.2 [RegistryOp.update "a1" "lo".data 12]
      singleActiveState "a1" pendingSessA updatedSessA (by decide) (by decide)
      rfl (by decide)⟩

/-- The snapshot persisted for a session judged too stale during
recovery (part_002 lines 417-420). -/
def expiredSnapshot (snap : SessionSnapshot) : SessionSnapshot :=
  { snap with status := .error, error := "Session expired during recovery" }

theorem expiredSnapshot_save (snap : SessionSnapshot) :
    sessionToSnapshot { snapshotToSession snap with
      status := .error, error := "Session expired during recovery" } =
      expiredSnapshot snap := rfl

theorem assocGet_mem (k : String) (v : α) (l : List (String × α))
    (h : assocGet k l = some v) : (k, v) ∈ l := by
  induction l with
  | nil => cases h
  | cons hd tl ih =>
    obtain ⟨k₁, v₁⟩ := hd
    by_cases hk : k₁ = k
    · subst hk
      simp [assocGet] at h
      subst h
      exact List.mem_cons_self _ _
    · simp [assocGet, hk] at h
      exact List.mem_cons_of_mem _ (ih h)

theorem wellKeyed_mem (l : List (String × SessionSnapshot)) (k : String)
    (v : SessionSnapshot) (hwk : wellKeyed l = true) (h : (k, v) ∈ l) : v.id = k := by
  have := List.all_eq_true.mp hwk (k, v) h
  simpa using this

theorem wellKeyed_assocSet (l : List (String × SessionSnapshot)) (k : String)
    (v : SessionSnapshot) (hwk : wellKeyed l = true) (hv : v.id = k) :
    wellKeyed (assocSet k v l) = true := by
  induction l with
  | nil => simp [assocSet, wellKeyed, hv]
  | cons hd tl ih =>
    obtain ⟨k₁, v₁⟩ := hd
    simp only [wellKeyed, List.all_cons, Bool.and_eq_true] at hwk
    by_cases hk : k₁ = k
    · simp only [assocSet, hk, if_true, wellKeyed, List.all_cons, Bool.and_eq_true]
      exact ⟨by simp [hv], hwk.2⟩
    · simp only [assocSet, hk, if_false, wellKeyed, List.all_cons, Bool.and_eq_true]
      exact ⟨hwk.1, ih hwk.2⟩

theorem saveSessionToCache_cache (st : SMState) (s : ChatSession)
    (entries : List (String × SessionSnapshot)) (hc : st.cache = some entries) :
    (saveSessionToCache st s).cache =
      some (assocSet s.id (sessionToSnapshot s) entries) := by
  simp [saveSessionToCache, hc]

theorem loadSessionFromCache_eq (st : SMState)
    (entries : List (String × SessionSnapshot)) (k : String)
    (hc : st.cache = some entries) :
    loadSessionFromCache st k = (assocGet k entries).map snapshotToSession := by
  simp [loadSessionFromCache, hc]

/-- The session loaded in the stale branch after its forced transition
to Error (part_002 lines 417-419). -/
def expiredSession (snap : SessionSnapshot) : ChatSession :=
  { snapshotToSession snap with
    status := .error
    error := "Session expired during recovery" }

theorem expiredSession_snapshot (snap : SessionSnapshot) :
    sessionToSnapshot (expiredSession snap) = expiredSnapshot snap := rfl

/-- A recovery iteration for a key different from the observed id leaves
the observed cache entry and the observed in-memory slot untouched, and
keeps the cache well-keyed. -/
theorem recoverStep_pres (now : Nat) (st : SMState) (k id : String) (hne : k ≠ id)
    (entries : List (String × SessionSnapshot)) (hc : st.cache = some entries)
    (hwk : wellKeyed entries = true) :
    ∃ entries', (recoverStep now st k).cache = some entries' ∧
      wellKeyed entries' = true ∧
      assocGet id entries' = assocGet id entries ∧
      assocGet id (recoverStep now st k).sessions = assocGet id st.sessions := by
  have hload := loadSessionFromCache_eq st entries k hc
  cases hk : assocGet k entries with
  | none =>
    have hstep : recoverStep now st k = st := by
      simp [recoverStep, hload, hk]
    rw [hstep]
    exact ⟨entries, hc, hwk, rfl, rfl⟩
  | some snap =>
    have hload2 : loadSessionFromCache st k = some (snapshotToSession snap) := by
      rw [hload, hk]
      rfl
    have hid : snap.id = k := wellKeyed_mem entries k snap hwk (assocGet_mem k snap entries hk)
    by_cases hact : isActiveStatus (snapshotToSession snap).status = true
    · by_cases hfr : now - (snapshotToSession snap).lastActivity < hourDuration
      · have hstep : recoverStep now st k =
            { st with sessions := assocSet k (snapshotToSession snap) st.sessions } := by
          simp [recoverStep, hload2, hact, hfr]
        rw [hstep]
        exact ⟨entries, hc, hwk, rfl, assocGet_assocSet_ne id k hne _ _⟩
      · have hstep : recoverStep now st k = saveSessionToCache st (expiredSession snap) := by
          simp [recoverStep, hload2, hact, hfr, expiredSession]
        have hcache : (saveSessionToCache st (expiredSession snap)).cache =
            some (assocSet k (expiredSnapshot snap) entries) := by
          rw [saveSessionToCache_cache st _ entries hc,
            show (expiredSession snap).id = snap.id from rfl,
            expiredSession_snapshot, hid]
        rw [hstep]
        refine ⟨assocSet k (expiredSnapshot snap) entries, hcache, ?_, ?_, ?_⟩
        · exact wellKeyed_assocSet entries k (expiredSnapshot snap) hwk
            (by simp [expiredSnapshot, hid])
        · exact assocGet_assocSet_ne id k hne (expiredSnapshot snap) entries
        · rw [sessions_saveSessionToCache]
    · have hstep : recoverStep now st k = st := by
        simp [recoverStep, hload2, hact]
      rw [hstep]
      exact ⟨entries, hc, hwk, rfl, rfl⟩

/-- Recovery iterations over keys avoiding the observed id preserve the
observed cache entry, the observed memory slot, and well-keyedness. -/
theorem recoverFold_pres (now : Nat) (ks : List String) (id : String) :
    ∀ (st : SMState) (entries : List (String × SessionSnapshot)), id ∉ ks →
    st.cache = some entries → wellKeyed entries = true →
    ∃ entries', (ks.foldl (recoverStep now) st).cache = some entries' ∧
      wellKeyed entries' = true ∧
      assocGet id entries' = assocGet id entries ∧
      assocGet id (ks.foldl (recoverStep now) st).sessions =
        assocGet id st.sessions := by
  induction ks with
  | nil =>
    intro st entries _ hc hwk
    exact ⟨entries, hc, hwk, rfl, rfl⟩
  | cons k rest ih =>
    intro st entries hid hc hwk
    have hne : k ≠ id := fun he => hid (by rw [he]; exact List.mem_cons_self _ _)
    have hrest : id ∉ rest := fun hm => hid (List.mem_cons_of_mem _ hm)
    obtain ⟨e1, hc1, hwk1, hget1, hmem1⟩ := recoverStep_pres now st k id hne entries hc hwk
    obtain ⟨e2, hc2, hwk2, hget2, hmem2⟩ := ih (recoverStep now st k) e1 hrest hc1 hwk1
    rw [List.foldl_cons]
    exact ⟨e2, hc2, hwk2, by rw [hget2, hget1], by rw [hmem2, hmem1]⟩

/-- The recovery iteration for the observed id, fresh case: the loaded
session is re-admitted into memory as-is, the cache untouched. -/
theorem recoverStep_self_fresh (now : Nat) (st : SMState) (id : String)
    (snap : SessionSnapshot) (entries : List (String × SessionSnapshot))
    (hc : st.cache = some entries) (hk : assocGet id entries = some snap)
    (hactive : isActiveStatus snap.status = true)
    (hfresh : now - snap.lastActivity < hourDuration) :
    recoverStep now st id =
      { st with sessions := assocSet id (snapshotToSession snap) st.sessions } := by
  have hload2 : loadSessionFromCache st id = some (snapshotToSession snap) := by
    rw [loadSessionFromCache_eq st entries id hc, hk]
    rfl
  have hact2 : isActiveStatus (snapshotToSession snap).status = true := hactive
  have hfr2 : now - (snapshotToSession snap).lastActivity < hourDuration := hfresh
  simp [recoverStep, hload2, hact2, hfr2]

/-- The recovery iteration for the observed id, stale case: memory is
untouched, the expired correction is persisted to the cache. -/
theorem recoverStep_self_stale (now : Nat) (st : SMState) (id : String)
    (snap : SessionSnapshot) (entries : List (String × SessionSnapshot))
    (hc : st.cache = some entries) (hk : assocGet id entries = some snap)
    (hid : snap.id = id)
    (hactive : isActiveStatus snap.status = true)
    (hstale : ¬ now - snap.lastActivity < hourDuration) :
    (recoverStep now st id).sessions = st.sessions ∧
    (recoverStep now st id).cache =
      some (assocSet id (expiredSnapshot snap) entries) := by
  have hload2 : loadSessionFromCache st id = some (snapshotToSession snap) := by
    rw [loadSessionFromCache_eq st entries id hc, hk]
    rfl
  have hact2 : isActiveStatus (snapshotToSession snap).status = true := hactive
  have hst2 : ¬ now - (snapshotToSession snap).lastActivity < hourDuration := hstale
  have hstep : recoverStep now st id = saveSessionToCache st (expiredSession snap) := by
    simp [recoverStep, hload2, hact2, hst2, expiredSession]
  constructor
  · rw [hstep, sessions_saveSessionToCache]
  · rw [hstep, saveSessionToCache_cache st _ entries hc,
      show (expiredSession snap).id = snap.id from rfl,
      expiredSession_snapshot, hid]

/-- C5: during startup recovery (a fold over the durable keys starting
from an empty in-memory registry), every durable snapshot with status
Pending/Processing is handled exactly as the claim states: within the
1-hour staleness window it is re-admitted into the registry as the
loaded record — whose status is its persisted one and whose runtime
fields are fresh (live handle, empty queues), i.e. pure state
visibility — and its cache entry stays untouched; outside the window it
is never admitted into memory and its cache entry is rewritten to
status Error with the fixed message "Session expired during recovery".
`recoverSessions` contains no dispatch of the processing pipeline (the
task wrapper `backgroundTask` is only ever invoked by
`StartPersistentChat`), so recovery never re-runs a pipeline. -/
theorem recoverSessions_staleness (entries : List (String × SessionSnapshot))
    (id : String) (snap : SessionSnapshot) (now : Nat)
    (hwk : wellKeyed entries = true)
    (hnd : (entries.map Prod.fst).Nodup)
    (hmem : assocGet id entries = some snap)
    (hactive : isActiveStatus snap.status = true) :
    (now - snap.lastActivity < hourDuration →
      assocGet id (recoverSessions { sessions := [], cache := some entries } now).sessions
        = some (snapshotToSession snap) ∧
      (snapshotToSession snap).runtime = some freshRuntime ∧
      (∃ entries', (recoverSessions { sessions := [], cache := some entries } now).cache
          = some entries' ∧ assocGet id entries' = some snap)) ∧
    (¬ now - snap.lastActivity < hourDuration →
      assocGet id (recoverSessions { sessions := [], cache := some entries } now).sessions
        = none ∧
      (∃ entries', (recoverSessions { sessions := [], cache := some entries } now).cache
          = some entries' ∧ assocGet id entries' = some (expiredSnapshot snap))) := by
  have hidmem : id ∈ entries.map Prod.fst :=
    List.mem_map_of_mem Prod.fst (assocGet_mem id snap entries hmem)
  obtain ⟨l1, l2, hsplit⟩ := List.append_of_mem hidmem
  have hnd' := hnd
  rw [hsplit] at hnd'
  have hly := List.nodup_append.mp hnd'
  have hnotl1 : id ∉ l1 := fun h => (hly.2.2 h) (List.mem_cons_self _ _)
  have hnotl2 : id ∉ l2 := (List.nodup_cons.mp hly.2.1).1
  have hid : snap.id = id :=
    wellKeyed_mem entries id snap hwk (assocGet_mem id snap entries hmem)
  have hrec : recoverSessions { sessions := [], cache := some entries } now =
      l2.foldl (recoverStep now)
        (recoverStep now
          (l1.foldl (recoverStep now) { sessions := [], cache := some entries }) id) := by
    show (entries.map Prod.fst).foldl (recoverStep now)
      { sessions := [], cache := some entries } = _
    rw [hsplit, List.foldl_append, List.foldl_cons]
  obtain ⟨eA, hcA, hwkA, hgetA, hmemA⟩ := recoverFold_pres now l1 id
    { sessions := [], cache := some entries } entries hnotl1 rfl hwk
  have hsnapA : assocGet id eA = some snap := by rw [hgetA, hmem]
  have hmemA0 : assocGet id
      (l1.foldl (recoverStep now) { sessions := [], cache := some entries }).sessions
      = none := by
    rw [hmemA]
    rfl
  constructor
  · intro hfresh
    have hB := recoverStep_self_fresh now _ id snap eA hcA hsnapA hactive hfresh
    obtain ⟨eC, hcC, hwkC, hgetC, hmemC⟩ := recoverFold_pres now l2 id
      (recoverStep now
        (l1.foldl (recoverStep now) { sessions := [], cache := some entries }) id)
      eA hnotl2 (by rw [hB]; exact hcA) hwkA
    refine ⟨?_, by simp [snapshotToSession, hactive], eC, by rw [hrec]; exact hcC,
      by rw [hgetC, hsnapA]⟩
    rw [hrec, hmemC, hB]
    exact assocGet_assocSet_self _ _ _
  · intro hstale
    obtain ⟨hBs, hBc⟩ := recoverStep_self_stale now _ id snap eA hcA hsnapA hid
      hactive hstale
    obtain ⟨eC, hcC, hwkC, hgetC, hmemC⟩ := recoverFold_pres now l2 id _
      (assocSet id (expiredSnapshot snap) eA) hnotl2 hBc
      (wellKeyed_assocSet eA id (expiredSnapshot snap) hwkA (by simp [expiredSnapshot, hid]))
    refine ⟨?_, eC, by rw [hrec]; exact hcC, by rw [hgetC, assocGet_assocSet_self]⟩
    rw [hrec, hmemC, hBs, hmemA0]

/-- A cache with one fresh and one stale in-flight snapshot (observed at
time 5000). -/
def snapFreshC5 : SessionSnapshot :=
  { id := "r1"
    conversationID := 1
    userID := 7
    status := .processing
    progress := []
    totalProgress := "He".data
    lastActivity := 4000
    createdAt := 3990
    completedAt := none
    model := "m"
    messages := []
    result := ""
    error := ""
    quota := 0 }

def snapStaleC5 : SessionSnapshot :=
  { snapFreshC5 with id := "r2", lastActivity := 0 }

def entriesC5 : List (String × SessionSnapshot) :=
  [("r1", snapFreshC5), ("r2", snapStaleC5)]

theorem recoverSessions_staleness_witness :
    (assocGet "r1" (recoverSessions { sessions := [], cache := some entriesC5 }
        5000).sessions = some (snapshotToSession snapFreshC5) ∧
     (snapshotToSession snapFreshC5).runtime = some freshRuntime ∧
     (∃ entries', (recoverSessions { sessions := [], cache := some entriesC5 }
         5000).cache = some entries' ∧ assocGet "r1" entries' = some snapFreshC5)) ∧
    (assocGet "r2" (recoverSessions { sessions := [], cache := some entriesC5 }
        5000).sessions = none ∧
     (∃ entries', (recoverSessions { sessions := [], cache := some entriesC5 }
         5000).cache = some entries' ∧
       assocGet "r2" entries' = some (expiredSnapshot snapStaleC5))) :=
  ⟨(recoverSessions_staleness entriesC5 "r1" snapFreshC5 5000 (by decide) (by decide)
      (by decide) (by decide)).1 (by decide),
   (recoverSessions_staleness entriesC5 "r2" snapStaleC5 5000 (by decide) (by decide)
      (by decide) (by decide)).2 (by decide)⟩

end Coai
